import Mathlib

/-!
Verification of the SASMigration analysis scripts (`egp_analysis_tool.py` and
`egp_comprehensive_analysis.py`) against their natural-language specification.

The pure text-processing core of the two scripts is embedded shallowly:
Python strings become `String`/`List Char`, and the specific `re` patterns the
scripts use are modelled by hand-rolled scanners that reproduce Python's
leftmost, non-overlapping, greedy matching for exactly those patterns (the
character classes are modelled over ASCII, which is the alphabet the scripts
are applied to).
-/

/-- Python `\s` over ASCII: space, tab, newline, carriage return, vertical
tab, form feed. -/
def isSpaceC (c : Char) : Bool :=
  c = ' ' || c = '\t' || c = '\n' || c = '\r' || c = '\x0b' || c = '\x0c'

/-- Python `\d` over ASCII. -/
def isDigitC (c : Char) : Bool :=
  '0' ≤ c && c ≤ '9'

/-- Python `\w` over ASCII: letters, digits, underscore. -/
def isWordC (c : Char) : Bool :=
  ('a' ≤ c && c ≤ 'z') || ('A' ≤ c && c ≤ 'Z') || isDigitC c || c = '_'

/-- First character of the `[a-z_]` class used by the capture groups in
`egp_analysis_tool.extract_datasets`. -/
def isTokStart (c : Char) : Bool :=
  ('a' ≤ c && c ≤ 'z') || c = '_'

/-- The `[a-z0-9_.]` class used by the capture groups in
`egp_analysis_tool.extract_datasets`. -/
def isTokChar (c : Char) : Bool :=
  isTokStart c || isDigitC c || c = '.'

/-- Python `str.lower` over ASCII (`'A'`–`'Z'` map down by 32, everything else
is fixed), modelling the `content.lower()` calls. -/
def lowerChar (c : Char) : Char :=
  if 65 ≤ c.toNat ∧ c.toNat ≤ 90 then Char.ofNat (c.toNat + 32) else c

/-- A `X+` run for a character class: requires at least one matching character
and consumes the maximal run, returning the remainder.  This is exactly what
the greedy `\s+` / `\d+` / `\w+` pieces of the scripts' patterns do, since in
every pattern the class is disjoint from what must follow. -/
def takeRun (p : Char → Bool) : List Char → Option (List Char)
  | [] => none
  | c :: cs => if p c then some (cs.dropWhile p) else none

/-- Match a literal character sequence, returning the remainder. -/
def matchLit : List Char → List Char → Option (List Char)
  | [], l => some l
  | _ :: _, [] => none
  | c :: cs, d :: ds => if c = d then matchLit cs ds else none

/-- `Python str.split('\n')`. -/
def splitOnNl : List Char → List (List Char)
  | [] => [[]]
  | c :: cs =>
    if c = '\n' then [] :: splitOnNl cs
    else
      match splitOnNl cs with
      | [] => [[c]]
      | l :: ls => (c :: l) :: ls

/-- `Python '\n'.join(...)` on already-split pieces. -/
def joinNl : List (List Char) → List Char
  | [] => []
  | [l] => l
  | l :: l2 :: ls => l ++ '\n' :: joinNl (l2 :: ls)

/-- Python `str.strip()` over ASCII whitespace. -/
def pyStrip (l : List Char) : List Char :=
  ((l.dropWhile isSpaceC).reverse.dropWhile isSpaceC).reverse

/-- Python `str.startswith(';*')`. -/
def startsSemiStar : List Char → Bool
  | ';' :: '*' :: _ => true
  | _ => false

/-- Pack a character list back into a `String`. -/
def strOf (l : List Char) : String := ⟨l⟩

/-- Models `re.match(r'^s\s+\d+\s+', line) is not None`: a literal `s`, then a
nonempty whitespace run, a nonempty digit run and a nonempty whitespace run
(each run maximal; the classes are pairwise disjoint so Python's backtracking
has a unique outcome). -/
def matchesLogNum (line : List Char) : Bool :=
  match line with
  | [] => false
  | c :: rest =>
    if c = 's' then
      match takeRun isSpaceC rest with
      | none => false
      | some r1 =>
        match takeRun isDigitC r1 with
        | none => false
        | some r2 => (takeRun isSpaceC r2).isSome
    else false

/-- Models `re.sub(r'^s\s+\d+\s+', '', line)`: remove the matched prefix if
the anchored pattern matches, otherwise return the line unchanged. -/
def subLogNum (line : List Char) : List Char :=
  match line with
  | [] => line
  | c :: rest =>
    if c = 's' then
      match takeRun isSpaceC rest with
      | none => line
      | some r1 =>
        match takeRun isDigitC r1 with
        | none => line
        | some r2 =>
          match takeRun isSpaceC r2 with
          | none => line
          | some r3 => r3
    else line

namespace EgpAnalysisTool

/-- `egp_analysis_tool.extract_sas_from_logs` (lines 12–28): split the content
on newlines; keep each line matching `^s\s+\d+\s+` whose payload (the line
with that prefix removed) has a nonempty strip not starting with `;*`;
return the kept payloads joined with newlines.  The empty string is falsy in
Python, so empty content short-circuits to the empty string. -/
def extract_sas_from_logs (content : String) : String :=
  if content.toList = [] then ""
  else
    strOf (joinNl ((splitOnNl content.toList).filterMap (fun line =>
      if matchesLogNum line then
        let sas_part := subLogNum line
        if pyStrip sas_part ≠ [] ∧ ¬ startsSemiStar (pyStrip sas_part) then
          some sas_part
        else none
      else none)))

end EgpAnalysisTool

namespace EgpComprehensive

/-- `egp_comprehensive_analysis.extract_sas_from_logs` (lines 13–29): the
source text is identical, character for character, to the function of the same
name in `egp_analysis_tool.py`. -/
def extract_sas_from_logs (content : String) : String :=
  if content.toList = [] then ""
  else
    strOf (joinNl ((splitOnNl content.toList).filterMap (fun line =>
      if matchesLogNum line then
        let sas_part := subLogNum line
        if pyStrip sas_part ≠ [] ∧ ¬ startsSemiStar (pyStrip sas_part) then
          some sas_part
        else none
      else none)))

end EgpComprehensive

/-- Spec-side recoverer, following the words of §4.1/§8 of the specification:
a line matches the prefix shape "`s`, whitespace, one or more digits,
whitespace, payload"; the payload is everything after that prefix; the line is
dropped if the trimmed payload is empty or begins with `;*`; kept payloads are
joined with newlines in original order. -/
def logLineShape (line : List Char) : Option (List Char) :=
  match line with
  | [] => none
  | c :: rest =>
    if c = 's' then
      let ws1 := rest.takeWhile isSpaceC
      let r1 := rest.dropWhile isSpaceC
      let ds := r1.takeWhile isDigitC
      let r2 := r1.dropWhile isDigitC
      let ws2 := r2.takeWhile isSpaceC
      let payload := r2.dropWhile isSpaceC
      if ws1 ≠ [] ∧ ds ≠ [] ∧ ws2 ≠ [] then some payload else none
    else none

/-- Spec-side statement of the whole Log Transcript Recoverer, assembled from
the specification's words. -/
def logRecovererSpec (content : String) : String :=
  strOf (joinNl ((splitOnNl content.toList).filterMap (fun line =>
    match logLineShape line with
    | some payload =>
      if pyStrip payload = [] ∨ startsSemiStar (pyStrip payload) then none
      else some payload
    | none => none)))

/-- Is there no word character immediately ahead?  Together with tracking
whether the previous character was a word character, this models `\b`. -/
def noWordAhead : List Char → Bool
  | [] => true
  | c :: _ => !(isWordC c)

/-- Was the last character of a (nonempty) consumed piece a word character?
Used to re-seed the `\b` tracking after a match. -/
def lastWord (l : List Char) : Bool :=
  match l.getLast? with
  | some c => isWordC c
  | none => false

/-- Counting scanner reproducing `len(re.findall(pat, s))` for the patterns
below: try the matcher at every position from left to right; on a match
(which always consumes at least one character) continue after it, otherwise
advance one character.  `prev` records whether the character before the
current position is a word character (`false` at the start of the string);
the matcher reports the word-character status of the last character it
consumed.  Fuel is the remaining length, which suffices because every step
consumes at least one character. -/
def countScanAux (m : Bool → List Char → Option (List Char × Bool)) :
    Nat → Bool → List Char → Nat
  | 0, _, _ => 0
  | _ + 1, _, [] => 0
  | fuel + 1, prev, c :: cs =>
    match m prev (c :: cs) with
    | some (rest, lw) => 1 + countScanAux m fuel lw rest
    | none => countScanAux m fuel (isWordC c) cs

/-- `len(re.findall(pat, s))` for a matcher `m`. -/
def countRe (m : Bool → List Char → Option (List Char × Bool)) (l : List Char) : Nat :=
  countScanAux m l.length false l

/-- Capture scanner reproducing `re.findall(pat, s)` for a pattern with one
capture group: like `countRe`, but collecting the captured tokens.  In every
pattern below the capture group ends exactly where the whole match ends, so
the `\b` tracking is re-seeded from the last captured character. -/
def capScanAux (m : Bool → List Char → Option (List Char × List Char)) :
    Nat → Bool → List Char → List (List Char)
  | 0, _, _ => []
  | _ + 1, _, [] => []
  | fuel + 1, prev, c :: cs =>
    match m prev (c :: cs) with
    | some (cap, rest) => cap :: capScanAux m fuel (lastWord cap) rest
    | none => capScanAux m fuel (isWordC c) cs

/-- `re.findall(pat, s)` for a matcher `m` with one capture group. -/
def findallRe (m : Bool → List Char → Option (List Char × List Char)) (l : List Char) :
    List (List Char) :=
  capScanAux m l.length false l

/-- Matcher for `\bproc\s+sql\b`. -/
def procSqlM (prev : Bool) (l : List Char) : Option (List Char × Bool) :=
  if prev then none else do
    let r1 ← matchLit "proc".toList l
    let r2 ← takeRun isSpaceC r1
    let r3 ← matchLit "sql".toList r2
    if noWordAhead r3 then pure (r3, true) else none

/-- Matcher for `\bdata\s+\w+`. -/
def dataStepM (prev : Bool) (l : List Char) : Option (List Char × Bool) :=
  if prev then none else do
    let r1 ← matchLit "data".toList l
    let r2 ← takeRun isSpaceC r1
    let r3 ← takeRun isWordC r2
    pure (r3, true)

/-- Matcher for `%macro\s+\w+` (no word-boundary assertion in the pattern). -/
def macroDefM (_prev : Bool) (l : List Char) : Option (List Char × Bool) := do
  let r1 ← matchLit "%macro".toList l
  let r2 ← takeRun isSpaceC r1
  let r3 ← takeRun isWordC r2
  pure (r3, true)

/-- Matcher for `\bw\b` where `w` is a literal word (`join`, `where`). -/
def bareWordM (w : List Char) (prev : Bool) (l : List Char) : Option (List Char × Bool) :=
  if prev then none else do
    let r1 ← matchLit w l
    if noWordAhead r1 then pure (r1, true) else none

/-- Sequence of literal keywords each followed by a `\s+` run, e.g.
`create\s+table\s+` or `connect\s+to\s+`; returns what follows. -/
def litsThen (kws : List (List Char)) (l : List Char) : Option (List Char) :=
  match kws with
  | [] => some l
  | kw :: rest => do
    let r1 ← matchLit kw l
    let r2 ← takeRun isSpaceC r1
    litsThen rest r2

/-- Keyword-then-capture matcher: an optional leading `\b` (required exactly
when the pattern starts with `\b`), the keyword sequence, then the capture
group `cap`. -/
def kwCapM (needsB : Bool) (kws : List (List Char))
    (cap : List Char → Option (List Char × List Char))
    (prev : Bool) (l : List Char) : Option (List Char × List Char) :=
  if needsB && prev then none else do
    let r ← litsThen kws l
    cap r

/-- Capture group `([a-z_][a-z0-9_.]*)`. -/
def capTokStar : List Char → Option (List Char × List Char)
  | [] => none
  | c :: cs =>
    if isTokStart c then some (c :: cs.takeWhile isTokChar, cs.dropWhile isTokChar)
    else none

/-- Capture group `([a-z_][a-z0-9_.]+)`. -/
def capTokPlus : List Char → Option (List Char × List Char)
  | [] => none
  | c :: cs =>
    if isTokStart c then
      match cs with
      | [] => none
      | d :: ds =>
        if isTokChar d then some (c :: d :: ds.takeWhile isTokChar, ds.dropWhile isTokChar)
        else none
    else none

/-- Capture group `(\w+)`. -/
def capWord : List Char → Option (List Char × List Char)
  | [] => none
  | c :: cs =>
    if isWordC c then some (c :: cs.takeWhile isWordC, cs.dropWhile isWordC)
    else none

/-- Capture group `(\w+(?:\.\w+)?)`: a word run, optionally extended by a dot
and another word run (the optional group matches greedily when it can). -/
def capWordDot : List Char → Option (List Char × List Char)
  | [] => none
  | c :: cs =>
    if isWordC c then
      let w := c :: cs.takeWhile isWordC
      let r := cs.dropWhile isWordC
      match r with
      | '.' :: d :: ds =>
        if isWordC d then
          some (w ++ '.' :: d :: ds.takeWhile isWordC, ds.dropWhile isWordC)
        else some (w, r)
      | _ => some (w, r)
    else none

/-- The five occurrence counts shared by `analyze_sas_patterns` (whose dict
key for the last one is `'where_clauses'`) and `count_sas_patterns` (whose
dict key for the last one is `'where'`). -/
structure SasPatterns where
  proc_sql : Nat
  data_steps : Nat
  macros : Nat
  joins : Nat
  where_clauses : Nat
deriving DecidableEq

/-- Result of `egp_analysis_tool.analyze_sas_patterns`: the pattern-count
dict plus the list of `connect to` targets. -/
structure SasAnalysis where
  patterns : SasPatterns
  connect_stmts : List String
deriving DecidableEq

namespace EgpAnalysisTool

/-- `egp_analysis_tool.analyze_sas_patterns` (lines 51–70): lower-case the
content, then count `\bproc\s+sql\b`, `\bdata\s+\w+`, `%macro\s+\w+`,
`\bjoin\b` and `\bwhere\b`, and collect the captures of
`\bconnect\s+to\s+(\w+)`. -/
def analyze_sas_patterns (content : String) : SasAnalysis :=
  let cl := content.toList.map lowerChar
  { patterns :=
      { proc_sql := countRe procSqlM cl
        data_steps := countRe dataStepM cl
        macros := countRe macroDefM cl
        joins := countRe (bareWordM "join".toList) cl
        where_clauses := countRe (bareWordM "where".toList) cl }
    connect_stmts :=
      (findallRe (kwCapM true ["connect".toList, "to".toList] capWord) cl).map strOf }

end EgpAnalysisTool

namespace EgpComprehensive

/-- `egp_comprehensive_analysis.count_sas_patterns` (lines 31–50): empty
content short-circuits to all-zero counts; otherwise lower-case and count the
same five patterns as `analyze_sas_patterns`. -/
def count_sas_patterns (content : String) : SasPatterns :=
  if content.toList = [] then
    { proc_sql := 0, data_steps := 0, macros := 0, joins := 0, where_clauses := 0 }
  else
    let cl := content.toList.map lowerChar
    { proc_sql := countRe procSqlM cl
      data_steps := countRe dataStepM cl
      macros := countRe macroDefM cl
      joins := countRe (bareWordM "join".toList) cl
      where_clauses := countRe (bareWordM "where".toList) cl }

end EgpComprehensive

/-- First-occurrence deduplication.  Models Python's `set(xs)` as it is used
in `get_datasets`: the script only ever treats the result as a set (membership
and size), so its iteration order is modelled as first-occurrence order. -/
def pySet (seen : List String) : List String → List String
  | [] => []
  | x :: xs => if x ∈ seen then pySet seen xs else x :: pySet (x :: seen) xs

namespace EgpAnalysisTool

/-- The `sas_keywords` denylist of `egp_analysis_tool.extract_datasets`
(line 99). -/
def sas_keywords : List String :=
  ["work", "sashelp", "sasuser", "_null_", "run", "quit", "end", "then",
   "else", "do", "if", "where", "by", "and", "or", "select", "from", "join",
   "on", "as", "when", "case"]

/-- `egp_analysis_tool.extract_datasets` (lines 72–104): lower-case the
content; collect the captures of `\bfrom\s+([a-z_][a-z0-9_.]*)`,
`\bjoin\s+([a-z_][a-z0-9_.]*)` and `\bset\s+([a-z_][a-z0-9_.]+)` as inputs,
and of `create\s+table\s+([a-z_][a-z0-9_.]*)` and
`\bdata\s+([a-z_][a-z0-9_.]+)` as outputs; then keep each stripped token that
is nonempty, not a keyword and longer than one character.  No deduplication
is performed. -/
def extract_datasets (content : String) : List String × List String :=
  let cl := content.toList.map lowerChar
  let from_matches := (findallRe (kwCapM true ["from".toList] capTokStar) cl).map strOf
  let join_matches := (findallRe (kwCapM true ["join".toList] capTokStar) cl).map strOf
  let set_matches := (findallRe (kwCapM true ["set".toList] capTokPlus) cl).map strOf
  let inputs := from_matches ++ join_matches ++ set_matches
  let create_matches :=
    (findallRe (kwCapM false ["create".toList, "table".toList] capTokStar) cl).map strOf
  let data_matches := (findallRe (kwCapM true ["data".toList] capTokPlus) cl).map strOf
  let outputs := create_matches ++ data_matches
  (inputs.filterMap (fun inp =>
      let t := strOf (pyStrip inp.toList)
      if t.toList ≠ [] ∧ t ∉ sas_keywords ∧ 1 < t.length then some t else none),
   outputs.filterMap (fun out =>
      let t := strOf (pyStrip out.toList)
      if t.toList ≠ [] ∧ t ∉ sas_keywords ∧ 1 < t.length then some t else none))

end EgpAnalysisTool

namespace EgpComprehensive

/-- `egp_comprehensive_analysis.get_datasets` (lines 52–75): empty content
yields two empty lists; otherwise lower-case the content, collect the
captures of `\bfrom\s+(\w+(?:\.\w+)?)`, `\bset\s+(\w+(?:\.\w+)?)`,
`\bjoin\s+(\w+(?:\.\w+)?)` and `\bmerge\s+(\w+(?:\.\w+)?)` as inputs and of
`create\s+table\s+(\w+(?:\.\w+)?)` and `\bdata\s+(\w+(?:\.\w+)?)` as outputs,
deduplicate each side via `set(...)`, and keep the tokens of length greater
than two that are not in the side's denylist — `['run', 'quit', 'end',
'work']` for inputs but only `['run', 'quit', 'end']` for outputs. -/
def get_datasets (content : String) : List String × List String :=
  if content.toList = [] then ([], [])
  else
    let cl := content.toList.map lowerChar
    let inputs : List String :=
      (findallRe (kwCapM true ["from".toList] capWordDot) cl).map strOf
        ++ (findallRe (kwCapM true ["set".toList] capWordDot) cl).map strOf
        ++ (findallRe (kwCapM true ["join".toList] capWordDot) cl).map strOf
        ++ (findallRe (kwCapM true ["merge".toList] capWordDot) cl).map strOf
    let outputs : List String :=
      (findallRe (kwCapM false ["create".toList, "table".toList] capWordDot) cl).map strOf
        ++ (findallRe (kwCapM true ["data".toList] capWordDot) cl).map strOf
    ((pySet [] inputs).filter
        (fun x => decide (2 < x.length ∧ x ∉ (["run", "quit", "end", "work"] : List String))),
     (pySet [] outputs).filter
        (fun x => decide (2 < x.length ∧ x ∉ (["run", "quit", "end"] : List String))))

end EgpComprehensive

/-- A CSV cell of the comprehensive report: the result dict holds either a
string or a non-negative integer. -/
inductive CsvVal where
  | str : String → CsvVal
  | nat : Nat → CsvVal
deriving DecidableEq

/-- Python `'; '.join(xs)`. -/
def joinSemi : List String → String
  | [] => ""
  | [x] => x
  | x :: y :: ys => x ++ "; " ++ joinSemi (y :: ys)

namespace EgpComprehensive

/-- The project-classification conditional expression of
`egp_comprehensive_analysis.analyze_egp_comprehensive`, line 191:
`'Code-heavy' if sas_lines > log_sas_lines else 'Query-based' if
log_sas_lines > 0 else 'Visual-only'`. -/
def project_type (sas_lines log_sas_lines : Nat) : String :=
  if sas_lines > log_sas_lines then "Code-heavy"
  else if log_sas_lines > 0 then "Query-based"
  else "Visual-only"

/-- The pure tail of `egp_comprehensive_analysis.analyze_egp_comprehensive`
(lines 139–192), modelled as a function of the data the preceding file-system
walk produced: the archive's file name, the project name read from the
manifest, the three file counts, the line counts and concatenated text of the
`.sas` files, and the line counts and concatenated recovered text of the
`.log` files.  It combines the content (line 140), counts patterns, extracts
datasets, and returns the result dict as an association list in the source's
key order (lines 172–192). -/
def analyze_egp_comprehensive (filename project_name : String)
    (total_files sas_files_count log_files_count : Nat)
    (sas_lines log_sas_lines : Nat)
    (sas_content log_sas_content : String) : List (String × CsvVal) :=
  let all_sas_content := sas_content ++ "\n" ++ log_sas_content
  let total_lines := sas_lines + log_sas_lines
  let patterns := count_sas_patterns all_sas_content
  let ds := get_datasets all_sas_content
  let inputs := ds.1
  let outputs := ds.2
  [("filename", .str filename),
   ("project_name", .str project_name),
   ("total_files", .nat total_files),
   ("sas_files", .nat sas_files_count),
   ("log_files", .nat log_files_count),
   ("sas_lines_from_files", .nat sas_lines),
   ("sas_lines_from_logs", .nat log_sas_lines),
   ("total_sas_lines", .nat total_lines),
   ("proc_sql", .nat patterns.proc_sql),
   ("data_steps", .nat patterns.data_steps),
   ("macros", .nat patterns.macros),
   ("joins", .nat patterns.joins),
   ("where_clauses", .nat patterns.where_clauses),
   ("input_datasets", .nat inputs.length),
   ("output_datasets", .nat outputs.length),
   ("input_list", .str (joinSemi (inputs.take 10))),
   ("output_list", .str (joinSemi (outputs.take 10))),
   ("has_sas_code", .str (if total_lines > 0 then "Yes" else "No")),
   ("project_type", .str (project_type sas_lines log_sas_lines))]

end EgpComprehensive

/-- Python `str.lower()` at the `String` level. -/
def pyLower (s : String) : String := strOf (s.toList.map lowerChar)

/-- The query scenario text of §8 of the specification. -/
def sqlScenario : String :=
  "proc sql; create table results as select * from raw_sales join lookup on raw_sales.id=lookup.id; quit;"

/-- `takeRun` restated with `takeWhile`/`dropWhile`. -/
theorem takeRun_eq (p : Char → Bool) (l : List Char) :
    takeRun p l = if l.takeWhile p = [] then none else some (l.dropWhile p) := by
  cases l with
  | nil => simp [takeRun]
  | cons c cs =>
    by_cases h : p c
    · simp [takeRun, h, List.takeWhile_cons, List.dropWhile_cons]
    · simp [takeRun, h, List.takeWhile_cons]

/-- The spec-side line shape agrees with the pair `re.match` / `re.sub` used
by the source: a line has the shape exactly when the match test succeeds, and
its payload is then what the substitution leaves. -/
theorem logLineShape_eq (line : List Char) :
    logLineShape line = if matchesLogNum line then some (subLogNum line) else none := by
  cases line with
  | nil => rfl
  | cons c rest =>
    by_cases hc : c = 's'
    · subst hc
      simp only [logLineShape, matchesLogNum, subLogNum, if_pos rfl, takeRun_eq]
      by_cases h1 : rest.takeWhile isSpaceC = [] <;>
        by_cases h2 : (rest.dropWhile isSpaceC).takeWhile isDigitC = [] <;>
          by_cases h3 :
              ((rest.dropWhile isSpaceC).dropWhile isDigitC).takeWhile isSpaceC = [] <;>
            simp [h1, h2, h3]
    · simp [logLineShape, matchesLogNum, hc]

/-- Per-line agreement of the source's keep-or-drop decision with the
spec-side one. -/
theorem recover_line_eq (line : List Char) :
    (if matchesLogNum line then
       if pyStrip (subLogNum line) ≠ [] ∧ ¬ startsSemiStar (pyStrip (subLogNum line)) then
         some (subLogNum line)
       else none
     else none)
    = (match logLineShape line with
       | some payload =>
         if pyStrip payload = [] ∨ startsSemiStar (pyStrip payload) then none else some payload
       | none => none) := by
  rw [logLineShape_eq]
  by_cases hm : matchesLogNum line
  · simp only [hm, if_true]
    by_cases h1 : pyStrip (subLogNum line) = [] <;>
      by_cases h2 : startsSemiStar (pyStrip (subLogNum line)) <;> simp [h1, h2]
  · simp [hm]

/-- The embedded source recoverer equals the spec-side recoverer. -/
theorem ext_eq_spec (content : String) :
    EgpAnalysisTool.extract_sas_from_logs content = logRecovererSpec content := by
  unfold EgpAnalysisTool.extract_sas_from_logs logRecovererSpec
  by_cases h : content.toList = []
  · simp only [h, if_pos rfl]
    rfl
  · simp only [h, if_neg h]
    have hcongr := List.filterMap_congr (l := splitOnNl content.toList)
      (f := fun line =>
        if matchesLogNum line then
          if pyStrip (subLogNum line) ≠ [] ∧ ¬ startsSemiStar (pyStrip (subLogNum line)) then
            some (subLogNum line)
          else none
        else none)
      (g := fun line =>
        match logLineShape line with
        | some payload =>
          if pyStrip payload = [] ∨ startsSemiStar (pyStrip payload) then none else some payload
        | none => none)
      (fun line _ => recover_line_eq line)
    exact congrArg (fun l => strOf (joinNl l)) hcongr

/-- C1: for every input string, `extract_sas_from_logs` (in both scripts)
returns the newline-joined payloads of exactly the lines matching the shape
"`s`, whitespace, digits, whitespace, payload" in original order, dropping
payloads whose trim is empty or begins with `;*` and dropping non-matching
lines (this is the content of `logRecovererSpec`); empty input yields the
empty string, and the function is total. -/
theorem log_recoverer_meets_spec :
    (∀ content : String,
        EgpAnalysisTool.extract_sas_from_logs content = logRecovererSpec content ∧
        EgpComprehensive.extract_sas_from_logs content = logRecovererSpec content) ∧
    EgpAnalysisTool.extract_sas_from_logs "" = "" ∧
    EgpComprehensive.extract_sas_from_logs "" = "" := by
  refine ⟨fun content => ⟨ext_eq_spec content, ?_⟩, by decide, by decide⟩
  have h : EgpComprehensive.extract_sas_from_logs content
      = EgpAnalysisTool.extract_sas_from_logs content := rfl
  rw [h]
  exact ext_eq_spec content

/-- C10: the two `extract_sas_from_logs` implementations are extensionally
equal (their source text is identical). -/
theorem log_recoverer_impls_agree :
    ∀ content : String,
      EgpAnalysisTool.extract_sas_from_logs content
        = EgpComprehensive.extract_sas_from_logs content :=
  fun _ => rfl

/-- If no line of a string matches the log-number prefix shape, the recoverer
maps it to the empty string. -/
theorem no_line_matches_empty (y : String)
    (h : ∀ l ∈ splitOnNl y.toList, matchesLogNum l = false) :
    EgpComprehensive.extract_sas_from_logs y = "" := by
  unfold EgpComprehensive.extract_sas_from_logs
  by_cases hnil : y.toList = []
  · rw [if_pos hnil]
  · rw [if_neg hnil]
    suffices h0 : (splitOnNl y.toList).filterMap (fun line =>
        if matchesLogNum line then
          let sas_part := subLogNum line
          if pyStrip sas_part ≠ [] ∧ ¬ startsSemiStar (pyStrip sas_part) then
            some sas_part
          else none
        else none) = [] by rw [h0]; rfl
    rw [List.filterMap_eq_nil_iff]
    intro l hl
    rw [h l hl]
    simp

/-- C4 (counterexample): the recoverer is not idempotent.  On
`"s 10 data a_tbl;"` the first application yields `"data a_tbl;"`, whose line
no longer carries the prefix, so the second application drops it and yields
`""`. -/
theorem log_recoverer_not_idempotent :
    EgpComprehensive.extract_sas_from_logs
        (EgpComprehensive.extract_sas_from_logs "s 10 data a_tbl;")
      ≠ EgpComprehensive.extract_sas_from_logs "s 10 data a_tbl;" := by decide

/-- C4 (amended): the recoverer's output carries no line-number prefix, but
for that very reason re-applying the recoverer is not the identity: whenever
no output line matches the prefix shape, the second application returns the
empty string. -/
theorem log_recoverer_reapply_empty (content : String)
    (h : ∀ l ∈ splitOnNl (EgpComprehensive.extract_sas_from_logs content).toList,
        matchesLogNum l = false) :
    EgpComprehensive.extract_sas_from_logs
        (EgpComprehensive.extract_sas_from_logs content) = "" :=
  no_line_matches_empty _ h

/-- C4 (witness): the amended statement instantiated at
`"s 10 data a_tbl;"`. -/
theorem log_recoverer_reapply_empty_witness :
    EgpComprehensive.extract_sas_from_logs
        (EgpComprehensive.extract_sas_from_logs "s 10 data a_tbl;") = "" :=
  log_recoverer_reapply_empty "s 10 data a_tbl;" (by decide)

/-- C6: the log-scenario of §8 — recovery keeps exactly the one code line,
the classifier counts one step block on it, and dataset extraction returns
input `work.in` and output `work.out`. -/
theorem log_scenario_eval :
    EgpAnalysisTool.extract_sas_from_logs
        "s 10 data work.out; set work.in; run;\ns 11 ;* comment"
      = "data work.out; set work.in; run;" ∧
    EgpComprehensive.extract_sas_from_logs
        "s 10 data work.out; set work.in; run;\ns 11 ;* comment"
      = "data work.out; set work.in; run;" ∧
    (EgpComprehensive.count_sas_patterns "data work.out; set work.in; run;").data_steps = 1 ∧
    EgpComprehensive.get_datasets "data work.out; set work.in; run;"
      = (["work.in"], ["work.out"]) := by decide

/-- C7: the query-scenario of §8 — one query block, one join clause, inputs
`raw_sales` and `lookup`, output `results`, for both extractors. -/
theorem sql_scenario_eval :
    (EgpAnalysisTool.analyze_sas_patterns sqlScenario).patterns.proc_sql = 1 ∧
    (EgpAnalysisTool.analyze_sas_patterns sqlScenario).patterns.joins = 1 ∧
    EgpAnalysisTool.extract_datasets sqlScenario = (["raw_sales", "lookup"], ["results"]) ∧
    EgpComprehensive.get_datasets sqlScenario = (["raw_sales", "lookup"], ["results"]) := by
  decide

/-- C3: the project classification follows the ordered, mutually exclusive
rule — `Code-heavy` when authored lines exceed recovered lines, otherwise
`Query-based` when any line was recovered, otherwise `Visual-only`; in
particular 40/10 gives `Code-heavy` and 5/40 gives `Query-based`. -/
theorem project_type_rule :
    (∀ a r : Nat,
      (r < a → EgpComprehensive.project_type a r = "Code-heavy") ∧
      (¬ r < a → 0 < r → EgpComprehensive.project_type a r = "Query-based") ∧
      (¬ r < a → r = 0 → EgpComprehensive.project_type a r = "Visual-only")) ∧
    EgpComprehensive.project_type 40 10 = "Code-heavy" ∧
    EgpComprehensive.project_type 5 40 = "Query-based" := by
  refine ⟨fun a r => ⟨?_, ?_, ?_⟩, by decide, by decide⟩
  · intro h
    simp [EgpComprehensive.project_type, h]
  · intro h hr
    simp [EgpComprehensive.project_type, h, hr]
  · intro h hr
    have ha : a = 0 := by omega
    simp [EgpComprehensive.project_type, ha, hr]

/-- C3 (witness): the rule applied at the 40-authored/10-recovered corner. -/
theorem project_type_rule_witness :
    (10 : Nat) < 40 ∧ EgpComprehensive.project_type 40 10 = "Code-heavy" :=
  ⟨by decide, (project_type_rule.1 40 10).1 (by decide)⟩

/-- `Char.ofNat` on a scalar value below the surrogate range. -/
theorem toNat_ofNat_lt (n : Nat) (h : n < 55296) : (Char.ofNat n).toNat = n := by
  unfold Char.ofNat
  rw [dif_pos (Or.inl h)]
  rfl

/-- ASCII lower-casing is idempotent. -/
theorem lowerChar_idem (c : Char) : lowerChar (lowerChar c) = lowerChar c := by
  unfold lowerChar
  by_cases h : 65 ≤ c.toNat ∧ c.toNat ≤ 90
  · rw [if_pos h]
    have h2 : (Char.ofNat (c.toNat + 32)).toNat = c.toNat + 32 :=
      toNat_ofNat_lt _ (by omega)
    rw [if_neg (by omega)]
  · rw [if_neg h, if_neg h]

/-- Lower-casing a character list twice is the same as doing it once. -/
theorem map_lowerChar_idem (l : List Char) :
    (l.map lowerChar).map lowerChar = l.map lowerChar := by
  rw [List.map_map]
  exact List.map_congr_left (fun c _ => lowerChar_idem c)

/-- `count_sas_patterns` is invariant under lower-casing its input. -/
theorem count_lower_eq (s : String) :
    EgpComprehensive.count_sas_patterns (pyLower s) = EgpComprehensive.count_sas_patterns s := by
  unfold EgpComprehensive.count_sas_patterns pyLower
  rw [show (strOf (s.toList.map lowerChar)).toList = s.toList.map lowerChar from rfl]
  by_cases h : s.toList = []
  · rw [if_pos (by simp; exact h), if_pos h]
  · rw [if_neg (by simp; exact h), if_neg h, map_lowerChar_idem]

/-- `analyze_sas_patterns` is invariant under lower-casing its input. -/
theorem analyze_lower_eq (s : String) :
    EgpAnalysisTool.analyze_sas_patterns (pyLower s) = EgpAnalysisTool.analyze_sas_patterns s := by
  unfold EgpAnalysisTool.analyze_sas_patterns pyLower
  rw [show (strOf (s.toList.map lowerChar)).toList = s.toList.map lowerChar from rfl,
    map_lowerChar_idem]

/-- C8: all pattern counts are non-negative, the empty input yields all-zero
counts (in both scripts' classifiers), and counting is case-insensitive:
classifying a string and classifying its lower-cased form yield identical
results, in particular on `"PROC SQL"` versus `"proc sql"`. -/
theorem pattern_counts_invariants (s : String) :
    (0 ≤ (EgpComprehensive.count_sas_patterns s).proc_sql ∧
      0 ≤ (EgpComprehensive.count_sas_patterns s).data_steps ∧
      0 ≤ (EgpComprehensive.count_sas_patterns s).macros ∧
      0 ≤ (EgpComprehensive.count_sas_patterns s).joins ∧
      0 ≤ (EgpComprehensive.count_sas_patterns s).where_clauses) ∧
    EgpComprehensive.count_sas_patterns "" = ⟨0, 0, 0, 0, 0⟩ ∧
    (EgpAnalysisTool.analyze_sas_patterns "").patterns = ⟨0, 0, 0, 0, 0⟩ ∧
    EgpComprehensive.count_sas_patterns (pyLower s) = EgpComprehensive.count_sas_patterns s ∧
    EgpAnalysisTool.analyze_sas_patterns (pyLower s) = EgpAnalysisTool.analyze_sas_patterns s ∧
    EgpComprehensive.count_sas_patterns "PROC SQL"
      = EgpComprehensive.count_sas_patterns "proc sql" ∧
    EgpAnalysisTool.analyze_sas_patterns "PROC SQL"
      = EgpAnalysisTool.analyze_sas_patterns "proc sql" :=
  ⟨⟨Nat.zero_le _, Nat.zero_le _, Nat.zero_le _, Nat.zero_le _, Nat.zero_le _⟩,
   by decide, by decide, count_lower_eq s, analyze_lower_eq s, by decide, by decide⟩

/-- C9: the per-archive tabular record has exactly the nineteen specified
field names in the specified order; `input_list`/`output_list` hold at most
ten dataset names joined with `"; "`; `has_sas_code` is `"Yes"` or `"No"`;
and `project_type` is one of the three classification labels. -/
theorem analysis_record_fields (filename project_name : String) (nf ns nl a r : Nat)
    (sc lc : String) :
    (EgpComprehensive.analyze_egp_comprehensive filename project_name nf ns nl a r sc lc).map
        Prod.fst
      = ["filename", "project_name", "total_files", "sas_files", "log_files",
         "sas_lines_from_files", "sas_lines_from_logs", "total_sas_lines", "proc_sql",
         "data_steps", "macros", "joins", "where_clauses", "input_datasets",
         "output_datasets", "input_list", "output_list", "has_sas_code", "project_type"] ∧
    List.lookup "input_list"
        (EgpComprehensive.analyze_egp_comprehensive filename project_name nf ns nl a r sc lc)
      = some (.str (joinSemi ((EgpComprehensive.get_datasets (sc ++ "\n" ++ lc)).1.take 10))) ∧
    ((EgpComprehensive.get_datasets (sc ++ "\n" ++ lc)).1.take 10).length ≤ 10 ∧
    List.lookup "output_list"
        (EgpComprehensive.analyze_egp_comprehensive filename project_name nf ns nl a r sc lc)
      = some (.str (joinSemi ((EgpComprehensive.get_datasets (sc ++ "\n" ++ lc)).2.take 10))) ∧
    ((EgpComprehensive.get_datasets (sc ++ "\n" ++ lc)).2.take 10).length ≤ 10 ∧
    (List.lookup "has_sas_code"
          (EgpComprehensive.analyze_egp_comprehensive filename project_name nf ns nl a r sc lc)
        = some (.str "Yes") ∨
      List.lookup "has_sas_code"
          (EgpComprehensive.analyze_egp_comprehensive filename project_name nf ns nl a r sc lc)
        = some (.str "No")) ∧
    (List.lookup "project_type"
          (EgpComprehensive.analyze_egp_comprehensive filename project_name nf ns nl a r sc lc)
        = some (.str "Code-heavy") ∨
      List.lookup "project_type"
          (EgpComprehensive.analyze_egp_comprehensive filename project_name nf ns nl a r sc lc)
        = some (.str "Query-based") ∨
      List.lookup "project_type"
          (EgpComprehensive.analyze_egp_comprehensive filename project_name nf ns nl a r sc lc)
        = some (.str "Visual-only")) := by
  refine ⟨rfl, rfl, ?_, rfl, ?_, ?_, ?_⟩
  · rw [List.length_take]
    exact min_le_left _ _
  · rw [List.length_take]
    exact min_le_left _ _
  · by_cases h : a + r > 0
    · left
      simp only [EgpComprehensive.analyze_egp_comprehensive]
      rw [if_pos h]
      rfl
    · right
      simp only [EgpComprehensive.analyze_egp_comprehensive]
      rw [if_neg h]
      rfl
  · by_cases h1 : a > r
    · left
      simp only [EgpComprehensive.analyze_egp_comprehensive, EgpComprehensive.project_type]
      rw [if_pos h1]
      rfl
    · by_cases h2 : r > 0
      · right; left
        simp only [EgpComprehensive.analyze_egp_comprehensive, EgpComprehensive.project_type]
        rw [if_neg h1, if_pos h2]
        rfl
      · right; right
        simp only [EgpComprehensive.analyze_egp_comprehensive, EgpComprehensive.project_type]
        rw [if_neg h1, if_neg h2]
        rfl

/-- Elements of `pySet seen l` are never in `seen`. -/
theorem pySet_not_mem_seen (l : List String) (seen : List String) :
    ∀ x ∈ pySet seen l, x ∉ seen := by
  induction l generalizing seen with
  | nil => simp [pySet]
  | cons a l ih =>
    intro x hx
    simp only [pySet] at hx
    by_cases ha : a ∈ seen
    · rw [if_pos ha] at hx
      exact ih seen x hx
    · rw [if_neg ha] at hx
      rcases List.mem_cons.mp hx with rfl | hx2
      · exact ha
      · intro hs
        exact ih (a :: seen) x hx2 (List.mem_cons_of_mem a hs)

/-- First-occurrence deduplication produces a duplicate-free list. -/
theorem pySet_nodup (l : List String) (seen : List String) : (pySet seen l).Nodup := by
  induction l generalizing seen with
  | nil => simp [pySet]
  | cons a l ih =>
    simp only [pySet]
    by_cases ha : a ∈ seen
    · rw [if_pos ha]
      exact ih seen
    · rw [if_neg ha]
      refine List.nodup_cons.mpr ⟨?_, ih (a :: seen)⟩
      intro hmem
      exact pySet_not_mem_seen l (a :: seen) a hmem (List.mem_cons_self a seen)

/-- C5 (counterexample): `extract_datasets` in `egp_analysis_tool.py` does
not deduplicate — on `"from abc from abc"` it returns the input token `abc`
twice. -/
theorem extract_datasets_duplicates :
    ¬ (EgpAnalysisTool.extract_datasets "from abc from abc").1.Nodup := by decide

/-- C5 (amended): `get_datasets` in `egp_comprehensive_analysis.py` returns
deduplicated collections — neither returned list contains the same
normalized identifier twice. -/
theorem get_datasets_nodup (content : String) :
    (EgpComprehensive.get_datasets content).1.Nodup ∧
    (EgpComprehensive.get_datasets content).2.Nodup := by
  unfold EgpComprehensive.get_datasets
  by_cases h : content.toList = []
  · rw [if_pos h]
    exact ⟨List.nodup_nil, List.nodup_nil⟩
  · rw [if_neg h]
    exact ⟨List.Nodup.filter _ (pySet_nodup _ _), List.Nodup.filter _ (pySet_nodup _ _)⟩

/-- Membership in the `get_datasets` post-filter forces the filter's
conditions. -/
theorem filterGet_mem (l deny : List String) (t : String)
    (ht : t ∈ l.filter (fun x => decide (2 < x.length ∧ x ∉ deny))) :
    2 < t.length ∧ t ∉ deny :=
  of_decide_eq_true (List.mem_filter.mp ht).2

/-- Membership in the `extract_datasets` post-filter forces the filter's
conditions. -/
theorem filterTool_mem (l : List String) (t : String)
    (ht : t ∈ l.filterMap (fun inp =>
      let t' := strOf (pyStrip inp.toList)
      if t'.toList ≠ [] ∧ t' ∉ EgpAnalysisTool.sas_keywords ∧ 1 < t'.length then some t'
      else none)) :
    1 < t.length ∧ t ∉ EgpAnalysisTool.sas_keywords := by
  rw [List.mem_filterMap] at ht
  obtain ⟨a, _, hfa⟩ := ht
  simp only at hfa
  split at hfa
  · rename_i hcond
    cases hfa
    exact ⟨hcond.2.2, hcond.2.1⟩
  · cases hfa

/-- C2 (counterexample): the claim's filter guarantees fail on the code —
`get_datasets` returns the denylisted name `work` in its output set (its
output-side denylist omits `'work'`), and `extract_datasets` returns the
length-2 token `ab` (its floor is `len > 1`). -/
theorem dataset_filters_counterexample :
    ("work" : String) ∈ (EgpComprehensive.get_datasets "data work").2 ∧
    ("ab" : String) ∈ (EgpAnalysisTool.extract_datasets "from ab").1 := by decide

/-- C2 (amended): every token returned by `get_datasets` has length greater
than two and avoids that side's denylist (`['run','quit','end','work']` for
inputs, `['run','quit','end']` for outputs), and every token returned by
`extract_datasets` has length greater than one and avoids its 22-keyword
denylist. -/
theorem dataset_filters_amended (content : String) :
    (∀ t ∈ (EgpComprehensive.get_datasets content).1,
        2 < t.length ∧ t ∉ (["run", "quit", "end", "work"] : List String)) ∧
    (∀ t ∈ (EgpComprehensive.get_datasets content).2,
        2 < t.length ∧ t ∉ (["run", "quit", "end"] : List String)) ∧
    (∀ t ∈ (EgpAnalysisTool.extract_datasets content).1,
        1 < t.length ∧ t ∉ EgpAnalysisTool.sas_keywords) ∧
    (∀ t ∈ (EgpAnalysisTool.extract_datasets content).2,
        1 < t.length ∧ t ∉ EgpAnalysisTool.sas_keywords) := by
  refine ⟨?_, ?_, ?_, ?_⟩
  · intro t ht
    unfold EgpComprehensive.get_datasets at ht
    by_cases h : content.toList = []
    · rw [if_pos h] at ht
      cases ht
    · rw [if_neg h] at ht
      exact filterGet_mem _ _ _ ht
  · intro t ht
    unfold EgpComprehensive.get_datasets at ht
    by_cases h : content.toList = []
    · rw [if_pos h] at ht
      cases ht
    · rw [if_neg h] at ht
      exact filterGet_mem _ _ _ ht
  · intro t ht
    unfold EgpAnalysisTool.extract_datasets at ht
    exact filterTool_mem _ _ ht
  · intro t ht
    unfold EgpAnalysisTool.extract_datasets at ht
    exact filterTool_mem _ _ ht

/-- C2 (witness): the amended statement applied to the token `abcd` returned
for the input `"from abcd"`. -/
theorem dataset_filters_amended_witness :
    (("abcd" : String) ∈ (EgpComprehensive.get_datasets "from abcd").1) ∧
    2 < ("abcd" : String).length ∧
    ("abcd" : String) ∉ (["run", "quit", "end", "work"] : List String) :=
  ⟨by decide, (dataset_filters_amended "from abcd").1 "abcd" (by decide)⟩
